import Mathlib

/-!
# Verification of the `bitch` MAVLink interception proxy core

A shallow embedding of the repository's core logic, translated from the Rust
sources:

* `src/batch.rs`    — batch aggregator (`BatchState`, `BatchManager`);
* `src/rules.rs`    — rule engine (`RuleEngine`, `Action`, matching, triggers);
* `src/rule_state.rs` — rule activation state (`RuleStateManager`);
* `src/config.rs`   — rule definitions and loader sorting (`Config::load`);
* `src/proxy.rs`    — action executors and the router→GCS dispatch.

Modelling conventions:

* `u8`/`usize`/`u64` machine integers become `Nat`; the only place the source
  truncates (`v as u8`) is modelled explicitly by `% 256`.
* `serde_json::Value` becomes the inductive `Json`; `toml::Value` becomes
  `TomlValue`.  `f64` numbers are modelled by `Rat`; no claim below depends on
  floating-point rounding.
* `HashMap` becomes an association list with insert-replacing semantics;
  `HashSet<u8>` becomes a duplicate-free `List Nat`.
* Fallible external operations (MAVLink parse, Lua modifier execution,
  message re-encoding) are oracles passed in as `Option`-returning functions.
* Async side effects are made explicit: functions return the list of packets
  eventually written to the sink, and rule processing returns the updated
  rule-state map plus the list of emitted side effects.
-/

namespace Bitch

/-! ## JSON and TOML values (`serde_json::Value`, `toml::Value`) -/

/-- `serde_json::Value`.  Integral numbers are `int`, other finite doubles are
`float` (modelled by `Rat`). -/
inductive Json where
  | null
  | bool (b : Bool)
  | int (n : Int)
  | float (q : Rat)
  | str (s : String)
  | arr (elems : List Json)
  | obj (fields : List (String × Json))
deriving Repr

/-- `toml::Value`. -/
inductive TomlValue where
  | int (n : Int)
  | float (q : Rat)
  | str (s : String)
  | bool (b : Bool)
  | arr (elems : List TomlValue)
  | table (fields : List (String × TomlValue))
  | datetime (s : String)
deriving Repr

mutual

/-- Structural equality of JSON values (`serde_json::Value: PartialEq`). -/
def Json.beq : Json → Json → Bool
  | .null, .null => true
  | .bool a, .bool b => a == b
  | .int a, .int b => a == b
  | .float a, .float b => a == b
  | .str a, .str b => a == b
  | .arr xs, .arr ys => Json.beqList xs ys
  | .obj fs, .obj gs => Json.beqFields fs gs
  | _, _ => false

def Json.beqList : List Json → List Json → Bool
  | [], [] => true
  | x :: xs, y :: ys => Json.beq x y && Json.beqList xs ys
  | _, _ => false

def Json.beqFields : List (String × Json) → List (String × Json) → Bool
  | [], [] => true
  | (k, v) :: fs, (l, w) :: gs => k == l && Json.beq v w && Json.beqFields fs gs
  | _, _ => false

end

/-- `Value::get(field)` on an object; `None` on any other variant. -/
def Json.get : Json → String → Option Json
  | .obj fields, key => (fields.find? (fun kv => kv.1 == key)).map (·.2)
  | _, _ => none

/-- `Value::as_i64`: integral numbers only. -/
def Json.as_i64 : Json → Option Int
  | .int n => some n
  | _ => none

/-- `Value::as_u64`: non-negative integral numbers only. -/
def Json.as_u64 : Json → Option Nat
  | .int n => if 0 ≤ n then some n.toNat else none
  | _ => none

/-- `Value::as_f64`: any number. -/
def Json.as_f64 : Json → Option Rat
  | .int n => some (n : Rat)
  | .float q => some q
  | _ => none

/-- `Value::as_str`. -/
def Json.as_str : Json → Option String
  | .str s => some s
  | _ => none

/-- `Value::as_bool`. -/
def Json.as_bool : Json → Option Bool
  | .bool b => some b
  | _ => none

/-- `f64::EPSILON`, the tolerance used for float condition comparison. -/
def f64Epsilon : Rat := 1 / 2 ^ 52

mutual

/-- `toml_to_json_value` from `src/rules.rs` (identical to `toml_to_json` in
`src/proxy.rs`).  `serde_json::Number::from_f64` only fails on NaN/infinity,
which `Rat` cannot represent, so the `float` branch never yields `null` here. -/
def toml_to_json_value : TomlValue → Json
  | .str s => .str s
  | .int i => .int i
  | .float f => .float f
  | .bool b => .bool b
  | .arr xs => .arr (toml_to_json_list xs)
  | .table fields => .obj (toml_to_json_fields fields)
  | .datetime dt => .str dt

def toml_to_json_list : List TomlValue → List Json
  | [] => []
  | x :: xs => toml_to_json_value x :: toml_to_json_list xs

def toml_to_json_fields : List (String × TomlValue) → List (String × Json)
  | [] => []
  | (k, v) :: fs => (k, toml_to_json_value v) :: toml_to_json_fields fs

end

/-! ## MAVLink header and message -/

/-- `mavlink::MavHeader`.  The `u8` fields are `Nat`s kept below 256 by the
callers that construct them. -/
structure MavHeader where
  system_id : Nat
  component_id : Nat
  sequence : Nat
deriving Repr, DecidableEq

/-- A MAVLink dialect message, abstracted: `name` is the enum-variant name that
`get_message_name` extracts, and `json` is the result of
`serde_json::to_value(msg)` (`none` models serialization failure, which the
source handles at every call site). -/
structure MavMessage where
  name : String
  json : Option Json
deriving Repr

/-- `get_message_name` from `src/rules.rs`: the variant name of the message. -/
def get_message_name (msg : MavMessage) : String := msg.name

/-! ## Rule configuration (`src/config.rs`) -/

/-- `TriggerConfig`.  Modelled from the spec: the struct declaration is not in
the provided `src/config.rs` snapshot; its fields are reconstructed from its
uses in `src/rules.rs` (`on_match`, `activate_rules`, `deactivate_rules`,
`duration_seconds`) and the spec's rule model (§3: "`triggers` (optional):
`on_match` flag, `activate_rules` list, `deactivate_rules` list,
`duration_seconds` for activations"). -/
structure TriggerConfig where
  on_match : Bool
  activate_rules : List String
  deactivate_rules : List String
  duration_seconds : Option Nat
deriving Repr

/-- `AutoAckConfig` from `src/config.rs`. -/
structure AutoAckConfig where
  message_type : String
  source_system_field : String
  source_component_field : String
  fields : List (String × TomlValue)
  copy_fields : List (String × String)
deriving Repr

/-- `RuleConditions` from `src/config.rs`: optional header conditions plus the
flattened generic field-condition map. -/
structure RuleConditions where
  system_id : Option Nat := none
  component_id : Option Nat := none
  custom : List (String × TomlValue) := []
deriving Repr

/-- `CommandRule` from `src/config.rs`.  The `name`, `enabled_by_default` and
`triggers` fields are absent from the provided `src/config.rs` snapshot but are
read by `src/rules.rs` and `src/proxy.rs`; they are reconstructed from those
uses and from the spec's rule model (§3). -/
structure CommandRule where
  name : String
  message_type : String
  conditions : RuleConditions := {}
  action : Option String := none
  actions : Option (List String) := none
  delay_seconds : Option Nat := none
  batch_count : Option Nat := none
  batch_timeout_seconds : Option Nat := none
  batch_timeout_forward : Bool := true
  batch_key : String := "default"
  batch_system_id_field : Option String := none
  plugins : List String := []
  auto_ack : Bool := false
  ack : Option AutoAckConfig := none
  modifier : Option String := none
  description : Option String := none
  priority : Int := 0
  direction : String := "gcs_to_router"
  enabled_by_default : Bool := true
  triggers : Option TriggerConfig := none
deriving Repr

/-- `CommandRule::get_actions`: the `actions` array, falling back to the
deprecated single `action` field, else empty. -/
def CommandRule.get_actions (rule : CommandRule) : List String :=
  match rule.actions with
  | some as => as
  | none =>
    match rule.action with
    | some a => [a]
    | none => []

/-- `Config::load` rule ordering (`src/config.rs` line 198):
`rules.sort_by(|a, b| b.priority.cmp(&a.priority))` — a stable sort putting
the highest priority first. -/
def sortRules (rules : List CommandRule) : List CommandRule :=
  rules.mergeSort (fun a b => b.priority ≤ a.priority)

/-! ## Rule-state manager (`src/rule_state.rs`)

`Instant` is modelled by a `Nat` timestamp supplied by the caller. -/

/-- `RuleActivation`. -/
structure RuleActivation where
  enabled : Bool
  expiration : Option Nat
  context : List (String × Json)
deriving Repr

/-- The `activations` map of `RuleStateManager`, as an association list.
`insert` replaces any existing entry for the key, matching `HashMap::insert`. -/
abbrev RuleStates := List (String × RuleActivation)

/-- `HashMap::insert` semantics on the activation map. -/
def statesInsert (states : RuleStates) (name : String) (a : RuleActivation) :
    RuleStates :=
  (name, a) :: states.filter (fun kv => kv.1 != name)

/-- `HashMap::get` on the activation map. -/
def statesGet (states : RuleStates) (name : String) : Option RuleActivation :=
  (states.find? (fun kv => kv.1 == name)).map (·.2)

/-- `RuleStateManager::is_rule_enabled`: missing names default to enabled. -/
def is_rule_enabled (states : RuleStates) (rule_name : String) : Bool :=
  ((statesGet states rule_name).map (·.enabled)).getD true

/-- `RuleStateManager::activate_rule`: enable with expiry `now + duration` and
store the given context. -/
def activate_rule (states : RuleStates) (now : Nat) (rule_name : String)
    (duration : Nat) (context : List (String × Json)) : RuleStates :=
  statesInsert states rule_name
    { enabled := true, expiration := some (now + duration), context := context }

/-- `RuleStateManager::deactivate_rule`: disable, clear expiry and context. -/
def deactivate_rule (states : RuleStates) (rule_name : String) : RuleStates :=
  statesInsert states rule_name
    { enabled := false, expiration := none, context := [] }

/-- `RuleStateManager::cleanup_expired`: disable every activation whose
expiration is at or before `now`, clearing expiry and context. -/
def cleanup_expired (states : RuleStates) (now : Nat) : RuleStates :=
  states.map (fun kv =>
    match kv.2.expiration with
    | some expiration =>
      if expiration ≤ now then
        (kv.1, { enabled := false, expiration := none, context := [] })
      else kv
    | none => kv)

/-! ## Condition matching (`src/rules.rs`) -/

/-- `RuleEngine::check_field_condition`: compare a message field against an
expected TOML value.  A missing field never matches. -/
def check_field_condition (msg_data : Json) (field_name : String)
    (expected_value : TomlValue) : Bool :=
  match msg_data.get field_name with
  | none => false
  | some actual_value =>
    match expected_value with
    | .int expected => actual_value.as_i64 == some expected
    | .float expected =>
      match actual_value.as_f64 with
      | some actual => |actual - expected| < f64Epsilon
      | none => false
    | .str expected => actual_value.as_str == some expected
    | .bool expected => actual_value.as_bool == some expected
    | .table _ => Json.beq actual_value (toml_to_json_value expected_value)
    | _ => false

/-- `RuleEngine::matches_conditions`: optional header conditions plus every
custom field condition. -/
def matches_conditions (header : MavHeader) (msg_json : Json)
    (conditions : RuleConditions) : Bool :=
  (match conditions.system_id with
   | some expected => header.system_id == expected
   | none => true) &&
  (match conditions.component_id with
   | some expected => header.component_id == expected
   | none => true) &&
  conditions.custom.all (fun fc => check_field_condition msg_json fc.1 fc.2)

/-- `RuleEngine::matches_rule`: direction filter, message-type check,
serialization (failure ⇒ no match), then conditions. -/
def matches_rule (header : MavHeader) (msg : MavMessage) (rule : CommandRule)
    (direction : String) : Bool :=
  if rule.direction != "both" && rule.direction != direction then false
  else if rule.message_type != get_message_name msg then false
  else
    match msg.json with
    | none => false
    | some message_json => matches_conditions header message_json rule.conditions

/-! ## Actions and processing results (`src/rules.rs`) -/

/-- `rules::Action`.  Durations are in whole seconds, as constructed by
`execute_action` from the rule's `*_seconds` fields. -/
inductive Action where
  | Forward
  | Delay (seconds : Nat)
  | Block
  | Batch (count : Nat) (timeout : Nat) (key : String) (forward_on_timeout : Bool)
      (system_id_field : Option String)
  | Modify (modifier : String) (modified_message : Option MavMessage)
deriving Repr

/-- `AckInfo` from `src/rules.rs`. -/
structure AckInfo where
  message_type : String
  source_system : Nat
  source_component : Nat
  fields : List (String × TomlValue)
  copy_fields : List (String × String)
  original_header : MavHeader
  original_message : Json
deriving Repr

/-- `ProcessResult` from `src/rules.rs`. -/
structure ProcessResult where
  actions : List Action
  ack_info : Option AckInfo
deriving Repr

/-- The Lua modifier oracle: `ModifierManager::execute_modifier`.  `none`
models an `Err` result. -/
abbrev ModifierOracle := String → MavHeader → MavMessage → Option MavMessage

/-- One arm of the `match action_name.as_str()` in `RuleEngine::execute_action`:
resolve one action token of a rule to a runtime `Action`.  Modifier failure or
a missing modifier downgrades `modify` to `Forward`; unknown tokens also become
`Forward`. -/
def resolve_action (modifiers : ModifierOracle) (rule : CommandRule)
    (msg : MavMessage) (header : MavHeader) (action_name : String) : Action :=
  if action_name == "delay" then .Delay (rule.delay_seconds.getD 0)
  else if action_name == "batch" then
    .Batch (rule.batch_count.getD 1) (rule.batch_timeout_seconds.getD 30)
      rule.batch_key rule.batch_timeout_forward rule.batch_system_id_field
  else if action_name == "block" then .Block
  else if action_name == "forward" then .Forward
  else if action_name == "modify" then
    match rule.modifier with
    | some modifier_name =>
      match modifiers modifier_name header msg with
      | some modified_msg => .Modify modifier_name (some modified_msg)
      | none => .Forward
    | none => .Forward
  else .Forward

/-- `RuleEngine::build_ack_info`: requires an `ack` config, a serializable
message, and the two source fields present as non-negative integers (each
truncated `as u8`). -/
def build_ack_info (rule : CommandRule) (msg : MavMessage) (header : MavHeader) :
    Option AckInfo := do
  let ack_config ← rule.ack
  let message_json ← msg.json
  let source_system ← (message_json.get ack_config.source_system_field).bind
    Json.as_u64
  let source_component ← (message_json.get ack_config.source_component_field).bind
    Json.as_u64
  pure
    { message_type := ack_config.message_type
      source_system := source_system % 256
      source_component := source_component % 256
      fields := ack_config.fields
      copy_fields := ack_config.copy_fields
      original_header := header
      original_message := message_json }

/-- `RuleEngine::execute_action`: build the ACK descriptor when `auto_ack` is
set, then map every action token of the rule to an `Action`. -/
def execute_action (modifiers : ModifierOracle) (rule : CommandRule)
    (msg : MavMessage) (header : MavHeader) : ProcessResult :=
  { actions := rule.get_actions.map (resolve_action modifiers rule msg header)
    ack_info := if rule.auto_ack then build_ack_info rule msg header else none }

/-! ## Triggers, plugins, and the processing loop (`src/rules.rs`) -/

/-- `PluginContext` from `src/plugins`; built by
`RuleEngine::build_plugin_context` (serialization failure falls back to the
empty object). -/
structure PluginContext where
  system_id : Nat
  component_id : Nat
  message_type : String
  message : Json
deriving Repr

/-- An observable side effect of processing one message. -/
inductive Effect where
  | pluginCall (plugin : String) (ctx : PluginContext)
  | activated (rule : String) (duration : Nat)
  | deactivated (rule : String)
deriving Repr

/-- `RuleEngine::execute_triggers`: an `activate_rules` entry is activated only
when `duration_seconds` is set; every `deactivate_rules` entry is deactivated.
The call site in `src/rules.rs` passes no context to `activate_rule`, modelled
as the empty context. -/
def execute_triggers (states : RuleStates) (now : Nat)
    (triggers : TriggerConfig) : RuleStates × List Effect :=
  let statesAfterActivate := triggers.activate_rules.foldl
    (fun acc rule_name =>
      match triggers.duration_seconds with
      | some duration_secs => activate_rule acc now rule_name duration_secs []
      | none => acc)
    states
  let activateEffects :=
    match triggers.duration_seconds with
    | some duration_secs =>
      triggers.activate_rules.map (fun n => Effect.activated n duration_secs)
    | none => []
  let statesAfterDeactivate := triggers.deactivate_rules.foldl
    (fun acc rule_name => deactivate_rule acc rule_name) statesAfterActivate
  (statesAfterDeactivate,
   activateEffects ++ triggers.deactivate_rules.map Effect.deactivated)

/-- `RuleEngine::build_plugin_context`. -/
def build_plugin_context (header : MavHeader) (msg : MavMessage) :
    PluginContext :=
  { system_id := header.system_id
    component_id := header.component_id
    message_type := get_message_name msg
    message := msg.json.getD (.obj []) }

/-- `RuleEngine::execute_plugins`: one invocation per listed plugin, in order;
failures are logged and swallowed. -/
def execute_plugins (rule : CommandRule) (header : MavHeader)
    (msg : MavMessage) : List Effect :=
  rule.plugins.map (fun plugin_name =>
    Effect.pluginCall plugin_name (build_plugin_context header msg))

/-- The on-match arm of `RuleEngine::process_message_with_direction`: fire
triggers (when `on_match`), invoke plugins, then build the `ProcessResult`. -/
def on_rule_match (modifiers : ModifierOracle) (states : RuleStates) (now : Nat)
    (rule : CommandRule) (header : MavHeader) (msg : MavMessage) :
    ProcessResult × RuleStates × List Effect :=
  let (states', triggerEffects) :=
    match rule.triggers with
    | some triggers =>
      if triggers.on_match then execute_triggers states now triggers
      else (states, [])
    | none => (states, [])
  let pluginEffects := execute_plugins rule header msg
  (execute_action modifiers rule msg header, states', triggerEffects ++ pluginEffects)

/-- `RuleEngine::process_message_with_direction`: scan rules in order, skip
disabled rules, stop at the first match; default to a bare `Forward` with no
ACK when nothing matches. -/
def process_message_with_direction (modifiers : ModifierOracle)
    (states : RuleStates) (now : Nat) (rules : List CommandRule)
    (header : MavHeader) (msg : MavMessage) (direction : String) :
    ProcessResult × RuleStates × List Effect :=
  match rules with
  | [] => ({ actions := [.Forward], ack_info := none }, states, [])
  | rule :: rest =>
    if !is_rule_enabled states rule.name then
      process_message_with_direction modifiers states now rest header msg direction
    else if matches_rule header msg rule direction then
      on_rule_match modifiers states now rule header msg
    else
      process_message_with_direction modifiers states now rest header msg direction

/-! ## Batch aggregator (`src/batch.rs`)

`Instant` is a `Nat` timestamp; the spawned timeout task is modelled as an
explicit `timeout` event in the trace semantics below (the task holds only the
key, exactly as in the source). -/

/-- A raw MAVLink frame, as an opaque byte list. -/
abbrev Packet := List Nat

/-- `batch::BatchState`. -/
structure BatchState where
  packets : List Packet
  /-- `HashSet<u8>` of systems seen, as a duplicate-free list. -/
  systems : List Nat
  threshold : Nat
  created_at : Nat
  forward_on_timeout : Bool
  remaining_actions : List Action
deriving Repr

/-- `BatchState::new`. -/
def BatchState.new (threshold : Nat) (forward_on_timeout : Bool)
    (remaining_actions : List Action) (created_at : Nat) : BatchState :=
  { packets := [], systems := [], threshold := threshold,
    created_at := created_at, forward_on_timeout := forward_on_timeout,
    remaining_actions := remaining_actions }

/-- `HashSet::insert` on the unique-source set. -/
def insertSystem (systems : List Nat) (system_id : Nat) : List Nat :=
  if system_id ∈ systems then systems else systems ++ [system_id]

/-- `BatchState::add_packet`: record the source and append the packet. -/
def BatchState.add_packet (st : BatchState) (system_id : Nat) (data : Packet) :
    BatchState :=
  { st with systems := insertSystem st.systems system_id,
            packets := st.packets ++ [data] }

/-- `BatchState::is_ready`: unique-source count has reached the threshold. -/
def BatchState.is_ready (st : BatchState) : Bool :=
  st.systems.length ≥ st.threshold

/-- `batch::BatchResult`. -/
inductive BatchResult where
  | Queued
  | Release (packets : List Packet) (remaining_actions : List Action)
deriving Repr

/-- The `batches` map of `BatchManager`, as an association list. -/
abbrev Batches := List (String × BatchState)

/-- `HashMap::get` on the batch map. -/
def batchesGet (batches : Batches) (key : String) : Option BatchState :=
  (batches.find? (fun kv => kv.1 == key)).map (·.2)

/-- `HashMap::insert` (replace) on the batch map. -/
def batchesInsert (batches : Batches) (key : String) (st : BatchState) :
    Batches :=
  (key, st) :: batches.filter (fun kv => kv.1 != key)

/-- `HashMap::remove` on the batch map. -/
def batchesRemove (batches : Batches) (key : String) : Batches :=
  batches.filter (fun kv => kv.1 != key)

/-- `BatchManager::queue_or_release`.  Get or create the entry (creation uses
the caller's `threshold`/`forward_on_timeout`/`remaining_actions` and spawns
the timeout task; on an existing entry those parameters are ignored), append
the packet, record the source, then release iff the stored threshold is
reached.  `timeout_secs` is captured only by the spawned timeout task. -/
def queue_or_release (batches : Batches) (now : Nat) (key : String)
    (system_id : Nat) (packet : Packet) (threshold : Nat) (timeout_secs : Nat)
    (forward_on_timeout : Bool) (remaining_actions : List Action) :
    Batches × BatchResult :=
  let batch0 :=
    match batchesGet batches key with
    | some st => st
    | none => BatchState.new threshold forward_on_timeout remaining_actions now
  let batch := batch0.add_packet system_id packet
  let batches1 := batchesInsert batches key batch
  if batch.is_ready then
    (batchesRemove batches1 key, .Release batch.packets batch.remaining_actions)
  else
    (batches1, .Queued)

/-- `BatchManager::handle_timeout`: if the key is present, remove it and send
the queued packets directly to the stored destination when
`forward_on_timeout` (the stored `remaining_actions` are discarded — the
source comments "timeout doesn't apply remaining actions - just forwards"),
else drop them.  Returns the map and the packets written to the destination
socket. -/
def handle_timeout (batches : Batches) (key : String) : Batches × List Packet :=
  match batchesGet batches key with
  | some batch =>
    (batchesRemove batches key,
     if batch.forward_on_timeout then batch.packets else [])
  | none => (batches, [])

/-! ### Trace semantics for the batch map

An execution is a list of events: `queue_or_release` calls and firings of
spawned timeout tasks.  Each event holds the aggregator lock for its whole
body in the source, so an interleaving is exactly a sequence of these
events. -/

/-- The arguments of one `queue_or_release` call. -/
structure QueueOp where
  key : String
  system_id : Nat
  packet : Packet
  threshold : Nat
  timeout_secs : Nat
  forward_on_timeout : Bool
  remaining_actions : List Action

/-- One serialized event on the batch map. -/
inductive BatchEvent where
  /-- A `queue_or_release` call at time `now`. -/
  | queue (op : QueueOp) (now : Nat)
  /-- A spawned timeout task for `key` fires.  The task identifies its batch
  by key alone, exactly as in the source. -/
  | timeout (key : String)

/-- What each event was observed to do. -/
inductive BatchObs where
  | queued
  | released (packets : List Packet) (remaining_actions : List Action)
  | timeoutForwarded (packets : List Packet)
  | timeoutDropped (packets : List Packet)
  | timeoutNoEntry
deriving Repr

/-- Run one event on the batch map. -/
def batchStep (batches : Batches) : BatchEvent → Batches × BatchObs
  | .queue op now =>
    match queue_or_release batches now op.key op.system_id op.packet
        op.threshold op.timeout_secs op.forward_on_timeout
        op.remaining_actions with
    | (batches', .Queued) => (batches', .queued)
    | (batches', .Release ps ras) => (batches', .released ps ras)
  | .timeout key =>
    match batchesGet batches key with
    | some batch =>
      (batchesRemove batches key,
       if batch.forward_on_timeout then .timeoutForwarded batch.packets
       else .timeoutDropped batch.packets)
    | none => (batches, .timeoutNoEntry)

/-- Run a list of events, collecting the observations. -/
def batchRun (batches : Batches) : List BatchEvent → Batches × List BatchObs
  | [] => (batches, [])
  | e :: es =>
    let (batches', obs) := batchStep batches e
    let (batches'', obss) := batchRun batches' es
    (batches'', obs :: obss)

/-! ## Action executors (`src/proxy.rs`) -/

/-- `parse_mavlink_message` as an oracle (MAVLink wire decoding is external
library code). -/
abbrev ParseOracle := Packet → Option (MavHeader × MavMessage)

/-- `mavlink::write_versioned_msg` as an oracle. -/
abbrev EncodeOracle := MavHeader → MavMessage → Option Packet

/-- The per-packet body of the `Modify` branch of both executors: re-encode
the packet's header with the modified message; on parse or encode failure keep
the original packet. -/
def modify_packets (parse : ParseOracle) (encode : EncodeOracle)
    (modified_msg : MavMessage) (packets : List Packet) : List Packet :=
  packets.map (fun packet =>
    match parse packet with
    | some (header, _) =>
      match encode header modified_msg with
      | some buf => buf
      | none => packet
    | none => packet)

/-- `ProxyServer::extract_system_id_from_message`: serialize, fetch the field,
read it as a non-negative integer, truncate `as u8`. -/
def extract_system_id_from_message (msg : MavMessage) (field_name : String) :
    Option Nat := do
  let message_json ← msg.json
  let field_value ← message_json.get field_name
  let v ← field_value.as_u64
  pure (v % 256)

/-- The system-id computation of the `Batch` branch of `execute_actions_impl`
(`src/proxy.rs` lines 348–358): parse failure ⇒ `0`; a set `system_id_field`
falls back to the header's id when extraction fails. -/
def batch_source_system (parse : ParseOracle) (packet : Packet)
    (system_id_field : Option String) : Nat :=
  match parse packet with
  | some (header, msg) =>
    match system_id_field with
    | some field_name =>
      (extract_system_id_from_message msg field_name).getD header.system_id
    | none => header.system_id
  | none => 0

/-- `execute_actions_impl_broadcast`: the router→GCS action executor.  Returns
the packets eventually broadcast to all connected GCS clients (`Delay` spawns
a task that continues with the remaining actions; the returned list contains
its eventual broadcasts). -/
def execute_actions_impl_broadcast (parse : ParseOracle)
    (encode : EncodeOracle) : List Action → List Packet → List Packet
  | [], packets => packets
  | .Forward :: rest, packets =>
    execute_actions_impl_broadcast parse encode rest packets
  | .Block :: _, _ => []
  | .Modify _ modified_message :: rest, packets =>
    match modified_message with
    | some modified_msg =>
      execute_actions_impl_broadcast parse encode rest
        (modify_packets parse encode modified_msg packets)
    | none => execute_actions_impl_broadcast parse encode rest packets
  | .Delay _ :: rest, packets =>
    execute_actions_impl_broadcast parse encode rest packets
  | .Batch _ _ _ _ _ :: rest, packets =>
    -- "Batch action not supported in router->GCS direction, forwarding"
    execute_actions_impl_broadcast parse encode rest packets

/-- `execute_actions_impl`: the GCS→router action executor.  Returns the
updated batch map and the packets eventually written to the router.  The
`Batch` branch recurses on the aggregator-returned tail, which is not a
structural subterm, so the recursion carries explicit fuel; every claim below
is settled at inputs where the fuel suffices. -/
def execute_actions_impl (parse : ParseOracle) (encode : EncodeOracle) :
    Nat → Batches → Nat → List Action → List Packet → Batches × List Packet
  | 0, batches, _, _, _ => (batches, [])
  | _ + 1, batches, _, [], packets => (batches, packets)
  | fuel + 1, batches, now, .Forward :: rest, packets =>
    execute_actions_impl parse encode fuel batches now rest packets
  | _ + 1, batches, _, .Block :: _, _ => (batches, [])
  | fuel + 1, batches, now, .Modify _ modified_message :: rest, packets =>
    match modified_message with
    | some modified_msg =>
      execute_actions_impl parse encode fuel batches now rest
        (modify_packets parse encode modified_msg packets)
    | none => execute_actions_impl parse encode fuel batches now rest packets
  | fuel + 1, batches, now, .Delay _ :: rest, packets =>
    execute_actions_impl parse encode fuel batches now rest packets
  | fuel + 1, batches, now,
      .Batch count timeout key forward_on_timeout system_id_field :: rest,
      packets =>
    match packets with
    | [] => (batches, [])  -- unreachable: the source unwraps the first packet
    | packet :: _ =>
      let system_id := batch_source_system parse packet system_id_field
      match queue_or_release batches now key system_id packet count timeout
          forward_on_timeout rest with
      | (batches', .Queued) => (batches', [])
      | (batches', .Release ps ras) =>
        execute_actions_impl parse encode fuel batches' now ras ps

/-- The router→GCS delivery dispatch (`src/proxy.rs` lines 721–735): an empty
action list or one whose *first* action is `Forward` broadcasts the raw packet
directly; anything else goes through `execute_actions_impl_broadcast`. -/
def router_to_gcs_dispatch (parse : ParseOracle) (encode : EncodeOracle)
    (result : ProcessResult) (packet : Packet) : List Packet :=
  if result.actions.isEmpty ||
      (match result.actions.head? with
       | some .Forward => true
       | _ => false) then
    [packet]
  else
    execute_actions_impl_broadcast parse encode result.actions [packet]

/-! ## Theorems -/

/-- Unfolding lemma: the empty rule list yields the default result. -/
theorem process_nil (modifiers : ModifierOracle) (states : RuleStates)
    (now : Nat) (header : MavHeader) (msg : MavMessage) (direction : String) :
    process_message_with_direction modifiers states now [] header msg
        direction =
      ({ actions := [.Forward], ack_info := none }, states, []) := rfl

/-- Unfolding lemma: a disabled head rule is passed over. -/
theorem process_cons_disabled (modifiers : ModifierOracle)
    (states : RuleStates) (now : Nat) (rule : CommandRule)
    (rest : List CommandRule) (header : MavHeader) (msg : MavMessage)
    (direction : String) (hE : is_rule_enabled states rule.name = false) :
    process_message_with_direction modifiers states now (rule :: rest) header
        msg direction =
      process_message_with_direction modifiers states now rest header msg
        direction := by
  conv_lhs => unfold process_message_with_direction
  simp [hE]

/-- Unfolding lemma: an enabled head rule that does not match is passed
over. -/
theorem process_cons_no_match (modifiers : ModifierOracle)
    (states : RuleStates) (now : Nat) (rule : CommandRule)
    (rest : List CommandRule) (header : MavHeader) (msg : MavMessage)
    (direction : String) (hE : is_rule_enabled states rule.name = true)
    (hM : matches_rule header msg rule direction = false) :
    process_message_with_direction modifiers states now (rule :: rest) header
        msg direction =
      process_message_with_direction modifiers states now rest header msg
        direction := by
  conv_lhs => unfold process_message_with_direction
  simp [hE, hM]

/-- Unfolding lemma: an enabled, matching head rule fires. -/
theorem process_cons_match (modifiers : ModifierOracle) (states : RuleStates)
    (now : Nat) (rule : CommandRule) (rest : List CommandRule)
    (header : MavHeader) (msg : MavMessage) (direction : String)
    (hE : is_rule_enabled states rule.name = true)
    (hM : matches_rule header msg rule direction = true) :
    process_message_with_direction modifiers states now (rule :: rest) header
        msg direction =
      on_rule_match modifiers states now rule header msg := by
  conv_lhs => unfold process_message_with_direction
  simp [hE, hM]

/-- C8: when no enabled rule matches a `(header, message, direction)` triple,
the engine returns exactly the single action `Forward`, no ACK descriptor, an
unchanged rule-state map and no side effects. -/
theorem no_match_returns_forward (modifiers : ModifierOracle)
    (states : RuleStates) (now : Nat) (rules : List CommandRule)
    (header : MavHeader) (msg : MavMessage) (direction : String)
    (h : ∀ rule ∈ rules, is_rule_enabled states rule.name = true →
      matches_rule header msg rule direction = false) :
    process_message_with_direction modifiers states now rules header msg
        direction =
      ({ actions := [.Forward], ack_info := none }, states, []) := by
  induction rules with
  | nil => rfl
  | cons rule rest ih =>
    have hrest : ∀ r ∈ rest, is_rule_enabled states r.name = true →
        matches_rule header msg r direction = false :=
      fun r hm => h r (List.mem_cons_of_mem _ hm)
    cases hE : is_rule_enabled states rule.name with
    | false => rw [process_cons_disabled _ _ _ _ _ _ _ _ hE]; exact ih hrest
    | true =>
      have hM := h rule (List.mem_cons_self _ _) hE
      rw [process_cons_no_match _ _ _ _ _ _ _ _ hE hM]; exact ih hrest

/-- Closed witness for `no_match_returns_forward`: a single rule for a
different message type never fires, so a HEARTBEAT falls through to the
default `Forward`. -/
theorem no_match_returns_forward_witness :
    process_message_with_direction (fun _ _ _ => none) [] 0
        [{ name := "block-cmd", message_type := "COMMAND_LONG",
           action := some "block" }]
        { system_id := 1, component_id := 1, sequence := 0 }
        { name := "HEARTBEAT", json := some (.obj []) } "gcs_to_router" =
      ({ actions := [.Forward], ack_info := none }, [], []) := by
  exact no_match_returns_forward _ _ _ _ _ _ _
    (by
      intro rule hr _
      rcases List.mem_singleton.mp hr with rfl
      decide)

/-- C5: a rule whose name is disabled in the rule-state map is skipped
entirely — processing with it in the rule list is literally the same as
processing without it, so it contributes no plugin call, no trigger, no ACK
and no action. -/
theorem disabled_rule_skipped (modifiers : ModifierOracle)
    (states : RuleStates) (now : Nat) (rules₁ : List CommandRule)
    (r : CommandRule) (rules₂ : List CommandRule) (header : MavHeader)
    (msg : MavMessage) (direction : String)
    (h : is_rule_enabled states r.name = false) :
    process_message_with_direction modifiers states now (rules₁ ++ r :: rules₂)
        header msg direction =
      process_message_with_direction modifiers states now (rules₁ ++ rules₂)
        header msg direction := by
  induction rules₁ with
  | nil =>
    simp only [List.nil_append]
    exact process_cons_disabled _ _ _ _ _ _ _ _ h
  | cons r' rest ih =>
    simp only [List.cons_append]
    cases hE : is_rule_enabled states r'.name with
    | false =>
      rw [process_cons_disabled _ _ _ _ _ _ _ _ hE,
        process_cons_disabled _ _ _ _ _ _ _ _ hE]
      exact ih
    | true =>
      cases hM : matches_rule header msg r' direction with
      | false =>
        rw [process_cons_no_match _ _ _ _ _ _ _ _ hE hM,
          process_cons_no_match _ _ _ _ _ _ _ _ hE hM]
        exact ih
      | true =>
        rw [process_cons_match _ _ _ _ _ _ _ _ hE hM,
          process_cons_match _ _ _ _ _ _ _ _ hE hM]

/-- Closed witness for `disabled_rule_skipped`: a disabled blocking rule is
transparent, the message falls through to the default `Forward`. -/
theorem disabled_rule_skipped_witness :
    process_message_with_direction (fun _ _ _ => none)
        [("block-hb", { enabled := false, expiration := none, context := [] })]
        0
        ([] ++ [{ name := "block-hb", message_type := "HEARTBEAT",
                  action := some "block" : CommandRule }] ++ [])
        { system_id := 1, component_id := 1, sequence := 0 }
        { name := "HEARTBEAT", json := some (.obj []) } "gcs_to_router" =
      process_message_with_direction (fun _ _ _ => none)
        [("block-hb", { enabled := false, expiration := none, context := [] })]
        0 ([] ++ [])
        { system_id := 1, component_id := 1, sequence := 0 }
        { name := "HEARTBEAT", json := some (.obj []) } "gcs_to_router" := by
  exact disabled_rule_skipped _ _ _ [] _ [] _ _ _ (by decide)

/-- The comparator used by `Config::load`'s rule sort is transitive. -/
theorem ruleLe_trans : ∀ a b c : CommandRule,
    (fun a b : CommandRule => decide (b.priority ≤ a.priority)) a b = true →
    (fun a b : CommandRule => decide (b.priority ≤ a.priority)) b c = true →
    (fun a b : CommandRule => decide (b.priority ≤ a.priority)) a c = true := by
  intro a b c hab hbc
  simp only [decide_eq_true_eq] at *
  omega

/-- The comparator used by `Config::load`'s rule sort is total. -/
theorem ruleLe_total : ∀ a b : CommandRule,
    ((fun a b : CommandRule => decide (b.priority ≤ a.priority)) a b ||
     (fun a b : CommandRule => decide (b.priority ≤ a.priority)) b a) = true := by
  intro a b
  simp only [Bool.or_eq_true, decide_eq_true_eq]
  omega

/-- C4: the loader's sort yields descending priority with equal-priority rules
kept in load order, and processing a sorted rule list is decided by the first
enabled matching rule alone — the rules after it contribute no action, ACK,
plugin call or trigger.  Three conjuncts: (1) `sortRules` is sorted by
descending priority; (2) `sortRules` is stable — for every priority the
equal-priority rules appear exactly in load order; (3) if nothing before `r`
is enabled and matching while `r` is, the whole result (actions, ACK, rule
states and side effects) is `on_rule_match` of `r`, independent of every rule
after `r`. -/
theorem rules_sorted_first_match_wins :
    (∀ rs : List CommandRule,
      (sortRules rs).Pairwise (fun a b => b.priority ≤ a.priority)) ∧
    (∀ (rs : List CommandRule) (p : Int),
      (sortRules rs).filter (fun r => r.priority == p) =
        rs.filter (fun r => r.priority == p)) ∧
    (∀ (modifiers : ModifierOracle) (states : RuleStates) (now : Nat)
        (rules₁ : List CommandRule) (r : CommandRule)
        (rules₂ : List CommandRule) (header : MavHeader) (msg : MavMessage)
        (direction : String),
      (∀ r' ∈ rules₁, is_rule_enabled states r'.name = true →
        matches_rule header msg r' direction = false) →
      is_rule_enabled states r.name = true →
      matches_rule header msg r direction = true →
      process_message_with_direction modifiers states now
          (rules₁ ++ r :: rules₂) header msg direction =
        on_rule_match modifiers states now r header msg) := by
  refine ⟨?_, ?_, ?_⟩
  · intro rs
    have h := List.sorted_mergeSort ruleLe_trans ruleLe_total rs
    exact h.imp (by intro a b hab; simpa using hab)
  · intro rs p
    have hsub1 : List.Sublist (rs.filter (fun r => r.priority == p)) rs :=
      List.filter_sublist rs
    have hpw : (rs.filter (fun r => r.priority == p)).Pairwise
        (fun a b => (fun a b : CommandRule =>
          decide (b.priority ≤ a.priority)) a b = true) := by
      apply List.pairwise_of_forall_mem_list
      intro a ha b hb
      have ha' := (List.mem_filter.mp ha).2
      have hb' := (List.mem_filter.mp hb).2
      simp only [beq_iff_eq] at ha' hb'
      simp only [decide_eq_true_eq]
      omega
    have hsub2 := List.sublist_mergeSort ruleLe_trans ruleLe_total hpw hsub1
    have hff : rs.filter (fun a => (a.priority == p) && (a.priority == p)) =
        rs.filter (fun r => r.priority == p) :=
      List.filter_congr (by
        intro a _
        cases h : (a.priority == p) <;> simp [h])
    have hsub3 : List.Sublist (rs.filter (fun r => r.priority == p))
        ((sortRules rs).filter (fun r => r.priority == p)) := by
      have h := List.Sublist.filter (fun r => r.priority == p) hsub2
      rwa [List.filter_filter, hff] at h
    have hlen : (rs.filter (fun r => r.priority == p)).length =
        ((sortRules rs).filter (fun r => r.priority == p)).length :=
      (((List.mergeSort_perm rs _).filter (fun r => r.priority == p)).length_eq).symm
    exact (hsub3.eq_of_length hlen).symm
  · intro modifiers states now rules₁ r rules₂ header msg direction hbefore hE hM
    induction rules₁ with
    | nil =>
      simp only [List.nil_append]
      exact process_cons_match _ _ _ _ _ _ _ _ hE hM
    | cons r' rest ih =>
      have hrest : ∀ r'' ∈ rest, is_rule_enabled states r''.name = true →
          matches_rule header msg r'' direction = false :=
        fun r'' hm => hbefore r'' (List.mem_cons_of_mem _ hm)
      simp only [List.cons_append]
      cases hE' : is_rule_enabled states r'.name with
      | false =>
        rw [process_cons_disabled _ _ _ _ _ _ _ _ hE']
        exact ih hrest
      | true =>
        have hM' := hbefore r' (List.mem_cons_self _ _) hE'
        rw [process_cons_no_match _ _ _ _ _ _ _ _ hE' hM']
        exact ih hrest

/-- Closed witness for `rules_sorted_first_match_wins`: a two-rule sorted list
where both rules would match — the priority-10 rule fires and the priority-5
rule after it contributes nothing. -/
theorem rules_sorted_first_match_wins_witness :
    process_message_with_direction (fun _ _ _ => none) [] 0
        ([] ++ { name := "A", message_type := "HEARTBEAT",
                 action := some "block", priority := 10 } ::
          [{ name := "B", message_type := "HEARTBEAT",
             action := some "forward", priority := 5 }])
        { system_id := 1, component_id := 1, sequence := 0 }
        { name := "HEARTBEAT", json := some (.obj []) } "gcs_to_router" =
      on_rule_match (fun _ _ _ => none) [] 0
        { name := "A", message_type := "HEARTBEAT",
          action := some "block", priority := 10 }
        { system_id := 1, component_id := 1, sequence := 0 }
        { name := "HEARTBEAT", json := some (.obj []) } := by
  exact rules_sorted_first_match_wins.2.2 _ _ _ [] _ _ _ _ _
    (by intro r' hr'; simp at hr') (by decide) (by decide)

/-- Lookup after inserting the same key. -/
theorem statesGet_insert_self (states : RuleStates) (name : String)
    (a : RuleActivation) : statesGet (statesInsert states name a) name = some a := by
  simp [statesGet, statesInsert, List.find?]

/-- Searching for one key is unaffected by filtering out a different key. -/
theorem find_filter_other_key (name other : String) (h : other ≠ name)
    (states : RuleStates) :
    List.find? (fun kv => kv.1 == other)
        (states.filter (fun kv => kv.1 != name)) =
      List.find? (fun kv => kv.1 == other) states := by
  induction states with
  | nil => rfl
  | cons kv rest ih =>
    rw [List.filter_cons]
    by_cases hk : kv.1 = name
    · have h1 : (kv.1 != name) = false := by simp [hk]
      have h2 : (kv.1 == other) = false := by
        simp only [beq_eq_false_iff_ne, ne_eq, hk]
        exact fun he => h he.symm
      rw [h1, if_neg (by simp)]
      simp only [List.find?_cons, h2, ih]
    · have h1 : (kv.1 != name) = true := by simp [hk]
      rw [h1, if_pos rfl]
      cases hko : (kv.1 == other) with
      | true => simp [List.find?_cons, hko]
      | false => simp [List.find?_cons, hko, ih]

/-- Lookup after inserting a different key. -/
theorem statesGet_insert_ne (states : RuleStates) (name other : String)
    (a : RuleActivation) (h : other ≠ name) :
    statesGet (statesInsert states name a) other = statesGet states other := by
  have hbeq : (name == other) = false := by
    simp only [beq_eq_false_iff_ne, ne_eq]
    exact fun he => h he.symm
  simp only [statesGet, statesInsert, List.find?_cons, hbeq]
  rw [find_filter_other_key name other h states]

/-- The activation loop leaves untouched names alone. -/
theorem activate_fold_not_mem (l : List String) (states : RuleStates)
    (now d : Nat) (name : String) (h : name ∉ l) :
    statesGet (l.foldl (fun acc n => activate_rule acc now n d []) states)
        name = statesGet states name := by
  induction l generalizing states with
  | nil => rfl
  | cons m rest ih =>
    have hne : name ≠ m := fun he => h (he ▸ List.mem_cons_self m rest)
    have hrest : name ∉ rest := fun hm => h (List.mem_cons_of_mem _ hm)
    simp only [List.foldl_cons]
    rw [ih _ hrest, activate_rule, statesGet_insert_ne _ _ _ _ hne]

/-- Every name in the activation loop ends enabled with expiry `now + d` and
empty context. -/
theorem activate_fold_mem (l : List String) (states : RuleStates)
    (now d : Nat) (name : String) (h : name ∈ l) :
    statesGet (l.foldl (fun acc n => activate_rule acc now n d []) states)
        name =
      some { enabled := true, expiration := some (now + d), context := [] } := by
  induction l generalizing states with
  | nil => cases h
  | cons m rest ih =>
    simp only [List.foldl_cons]
    by_cases hmem : name ∈ rest
    · exact ih _ hmem
    · have hm : name = m := by
        rcases List.mem_cons.mp h with he | hm
        · exact he
        · exact absurd hm hmem
      subst hm
      rw [activate_fold_not_mem _ _ _ _ _ hmem, activate_rule,
        statesGet_insert_self]

/-- The deactivation loop leaves untouched names alone. -/
theorem deactivate_fold_not_mem (l : List String) (states : RuleStates)
    (name : String) (h : name ∉ l) :
    statesGet (l.foldl (fun acc n => deactivate_rule acc n) states) name =
      statesGet states name := by
  induction l generalizing states with
  | nil => rfl
  | cons m rest ih =>
    have hne : name ≠ m := fun he => h (he ▸ List.mem_cons_self m rest)
    have hrest : name ∉ rest := fun hm => h (List.mem_cons_of_mem _ hm)
    simp only [List.foldl_cons]
    rw [ih _ hrest, deactivate_rule, statesGet_insert_ne _ _ _ _ hne]

/-- Every name in the deactivation loop ends disabled with cleared expiry and
context. -/
theorem deactivate_fold_mem (l : List String) (states : RuleStates)
    (name : String) (h : name ∈ l) :
    statesGet (l.foldl (fun acc n => deactivate_rule acc n) states) name =
      some { enabled := false, expiration := none, context := [] } := by
  induction l generalizing states with
  | nil => cases h
  | cons m rest ih =>
    simp only [List.foldl_cons]
    by_cases hmem : name ∈ rest
    · exact ih _ hmem
    · have hm : name = m := by
        rcases List.mem_cons.mp h with he | hm
        · exact he
        · exact absurd hm hmem
      subst hm
      rw [deactivate_fold_not_mem _ _ _ hmem, deactivate_rule,
        statesGet_insert_self]

/-- C6 counterexample: a rule with `triggers.on_match` set, `activate_rules =
["B"]` and no `duration_seconds` matches, yet rule `B` stays disabled and no
activation effect fires — the claim's "every name in its activate_rules list
is activated" is false on the code. -/
theorem trigger_activation_counterexample :
    (on_rule_match (fun _ _ _ => none)
        [("B", { enabled := false, expiration := none, context := [] })] 0
        { name := "A", message_type := "HEARTBEAT", action := some "forward",
          triggers := some { on_match := true, activate_rules := ["B"],
                             deactivate_rules := [],
                             duration_seconds := none } }
        { system_id := 1, component_id := 1, sequence := 0 }
        { name := "HEARTBEAT", json := some (.obj []) }).2.1 =
      [("B", { enabled := false, expiration := none, context := [] })] ∧
    is_rule_enabled
      (on_rule_match (fun _ _ _ => none)
        [("B", { enabled := false, expiration := none, context := [] })] 0
        { name := "A", message_type := "HEARTBEAT", action := some "forward",
          triggers := some { on_match := true, activate_rules := ["B"],
                             deactivate_rules := [],
                             duration_seconds := none } }
        { system_id := 1, component_id := 1, sequence := 0 }
        { name := "HEARTBEAT", json := some (.obj []) }).2.1 "B" = false := by
  exact ⟨rfl, rfl⟩

/-- C6 amended: when a matching rule's `triggers.on_match` fires, each name in
`activate_rules` is activated **only if** `duration_seconds` is set (and then
with expiry `now + duration` and an *empty* stored context — the call site
passes no context); with `duration_seconds` unset, the activation loop is a
no-op.  Every name in `deactivate_rules` ends disabled with expiry and context
cleared, and names in neither list are untouched. -/
theorem execute_triggers_spec (states : RuleStates) (now : Nat)
    (cfg : TriggerConfig) :
    (cfg.duration_seconds = none →
      execute_triggers states now cfg =
        (cfg.deactivate_rules.foldl (fun acc n => deactivate_rule acc n) states,
         cfg.deactivate_rules.map Effect.deactivated)) ∧
    (∀ d, cfg.duration_seconds = some d →
      ∀ name ∈ cfg.activate_rules, name ∉ cfg.deactivate_rules →
      statesGet (execute_triggers states now cfg).1 name =
        some { enabled := true, expiration := some (now + d), context := [] }) ∧
    (∀ name ∈ cfg.deactivate_rules,
      statesGet (execute_triggers states now cfg).1 name =
        some { enabled := false, expiration := none, context := [] }) ∧
    (∀ name, name ∉ cfg.activate_rules → name ∉ cfg.deactivate_rules →
      statesGet (execute_triggers states now cfg).1 name =
        statesGet states name) := by
  refine ⟨?_, ?_, ?_, ?_⟩
  · intro hnone
    unfold execute_triggers
    rw [hnone]
    have hid : ∀ (l : List String) (s : RuleStates),
        l.foldl (fun acc (_ : String) => acc) s = s := by
      intro l
      induction l with
      | nil => exact fun _ => rfl
      | cons m rest ih => exact fun s => ih s
    simp [hid]
  · intro d hd name hmem hnot
    unfold execute_triggers
    rw [hd]
    simp only []
    rw [deactivate_fold_not_mem _ _ _ hnot]
    exact activate_fold_mem _ _ _ _ _ hmem
  · intro name hmem
    unfold execute_triggers
    simp only []
    cases hd : cfg.duration_seconds <;>
      exact deactivate_fold_mem _ _ _ hmem
  · intro name hnota hnotd
    unfold execute_triggers
    simp only []
    rw [deactivate_fold_not_mem _ _ _ hnotd]
    cases hd : cfg.duration_seconds with
    | none =>
      have hid : ∀ (l : List String) (s : RuleStates),
          l.foldl (fun acc (_ : String) => acc) s = s := by
        intro l
        induction l with
        | nil => exact fun _ => rfl
        | cons m rest ih => exact fun s => ih s
      rw [hid]
    | some d => exact activate_fold_not_mem _ _ _ _ _ hnota

/-- Closed witness for `execute_triggers_spec`: a trigger with duration 5
activates `B` (expiry `0 + 5`, empty context) and deactivates `C`. -/
theorem execute_triggers_spec_witness :
    statesGet (execute_triggers [] 0
        { on_match := true, activate_rules := ["B"],
          deactivate_rules := ["C"], duration_seconds := some 5 }).1 "B" =
      some { enabled := true, expiration := some 5, context := [] } ∧
    statesGet (execute_triggers [] 0
        { on_match := true, activate_rules := ["B"],
          deactivate_rules := ["C"], duration_seconds := some 5 }).1 "C" =
      some { enabled := false, expiration := none, context := [] } := by
  constructor
  · exact (execute_triggers_spec [] 0
      { on_match := true, activate_rules := ["B"],
        deactivate_rules := ["C"], duration_seconds := some 5 }).2.1 5 rfl "B"
      (List.mem_singleton.mpr rfl) (by intro hc; simp at hc)
  · exact (execute_triggers_spec [] 0
      { on_match := true, activate_rules := ["B"],
        deactivate_rules := ["C"], duration_seconds := some 5 }).2.2.1 "C"
      (List.mem_singleton.mpr rfl)

/-- C9: when a matched rule's action list contains a `modify` step and either
no modifier is configured or the modifier invocation fails, that step is
emitted as `Forward` instead of `Modify`. -/
theorem modify_failure_downgrades (modifiers : ModifierOracle)
    (rule : CommandRule) (msg : MavMessage) (header : MavHeader) (i : Nat)
    (hstep : rule.get_actions.get? i = some "modify")
    (hfail : rule.modifier = none ∨
      ∃ m, rule.modifier = some m ∧ modifiers m header msg = none) :
    (execute_action modifiers rule msg header).actions.get? i =
      some .Forward := by
  have hres : resolve_action modifiers rule msg header "modify" = .Forward := by
    rcases hfail with hnone | ⟨m, hm, hm_fail⟩
    · simp [resolve_action, hnone]
    · simp [resolve_action, hm, hm_fail]
  simp only [List.get?_eq_getElem?] at hstep
  simp only [execute_action, List.getElem?_map, hstep, hres,
    List.get?_eq_getElem?, Option.map_some']

/-- Closed witness for `modify_failure_downgrades`: a rule listing
`["modify", "block"]` with no configured modifier yields `Forward` for the
modify step. -/
theorem modify_failure_downgrades_witness :
    (execute_action (fun _ _ _ => none)
        { name := "rewrite", message_type := "COMMAND_LONG",
          actions := some ["modify", "block"], modifier := none }
        { name := "COMMAND_LONG", json := some (.obj []) }
        { system_id := 1, component_id := 1, sequence := 0 }).actions.get? 0 =
      some .Forward := by
  exact modify_failure_downgrades _ _ _ _ 0 (by decide) (Or.inl rfl)

/-- C10: the source-system key used by the `Batch` action.  Parse failure
falls back to system id `0`; with `system_id_field` set, a missing or
non-serializable message, an absent field, or a field that is not a
non-negative integer all fall back to the header's system id; a present
non-negative integer field is truncated `as u8`. -/
theorem batch_source_system_fallbacks (parse : ParseOracle) (packet : Packet)
    (field_name : String) (header : MavHeader) (msg : MavMessage) :
    (parse packet = none →
      ∀ sf, batch_source_system parse packet sf = 0) ∧
    (parse packet = some (header, msg) →
      batch_source_system parse packet none = header.system_id) ∧
    (parse packet = some (header, msg) →
      extract_system_id_from_message msg field_name = none →
      batch_source_system parse packet (some field_name) = header.system_id) ∧
    (parse packet = some (header, msg) → ∀ j v n, msg.json = some j →
      j.get field_name = some v → v.as_u64 = some n →
      batch_source_system parse packet (some field_name) = n % 256) ∧
    (∀ j, msg.json = some j →
      (j.get field_name = none ∨
        ∃ v, j.get field_name = some v ∧ v.as_u64 = none) →
      extract_system_id_from_message msg field_name = none) := by
  refine ⟨?_, ?_, ?_, ?_, ?_⟩
  · intro hp sf
    simp [batch_source_system, hp]
  · intro hp
    simp [batch_source_system, hp]
  · intro hp hx
    simp [batch_source_system, hp, hx]
  · intro hp j v n hj hv hn
    simp [batch_source_system, hp, extract_system_id_from_message, hj, hv, hn]
  · intro j hj hmiss
    rcases hmiss with hnone | ⟨v, hv, hu⟩
    · simp [extract_system_id_from_message, hj, hnone]
    · simp [extract_system_id_from_message, hj, hv, hu]

/-- Closed witness for `batch_source_system_fallbacks`: unparsable packet ⇒ 0;
absent field ⇒ header id; present field `260` ⇒ `260 % 256 = 4`. -/
theorem batch_source_system_fallbacks_witness :
    batch_source_system (fun _ => none) [0] (some "target_system") = 0 ∧
    batch_source_system
      (fun _ => some ({ system_id := 7, component_id := 1, sequence := 0 },
        { name := "COMMAND_LONG", json := some (.obj []) })) [0]
      (some "target_system") = 7 ∧
    batch_source_system
      (fun _ => some ({ system_id := 7, component_id := 1, sequence := 0 },
        { name := "COMMAND_LONG",
          json := some (.obj [("target_system", .int 260)]) })) [0]
      (some "target_system") = 4 := by
  refine ⟨?_, ?_, ?_⟩
  · exact (batch_source_system_fallbacks _ _ "target_system"
      { system_id := 0, component_id := 0, sequence := 0 }
      { name := "", json := none }).1 rfl _
  · exact (batch_source_system_fallbacks _ _ "target_system"
      { system_id := 7, component_id := 1, sequence := 0 }
      { name := "COMMAND_LONG", json := some (.obj []) }).2.2.1 rfl (by decide)
  · exact (batch_source_system_fallbacks _ _ "target_system"
      { system_id := 7, component_id := 1, sequence := 0 }
      { name := "COMMAND_LONG",
        json := some (.obj [("target_system", .int 260)]) }).2.2.2.1 rfl
      (.obj [("target_system", .int 260)]) (.int 260) 260 rfl rfl rfl

/-- An action that is literally `Forward`. -/
def Action.isForward : Action → Bool
  | .Forward => true
  | _ => false

/-- C7 counterexample: the action list `[Forward, Block]` does not consist
only of `Forward`, yet the router→GCS dispatch broadcasts the packet (the
`Block` never takes effect) instead of processing the list through the
broadcast executor, which would broadcast nothing. -/
theorem router_dispatch_counterexample :
    ([Action.Forward, Action.Block].all Action.isForward = false) ∧
    router_to_gcs_dispatch (fun _ => none) (fun _ _ => none)
        { actions := [.Forward, .Block], ack_info := none } [1] = [[1]] ∧
    execute_actions_impl_broadcast (fun _ => none) (fun _ _ => none)
        [.Forward, .Block] [[1]] = [] ∧
    router_to_gcs_dispatch (fun _ => none) (fun _ _ => none)
        { actions := [.Forward, .Block], ack_info := none } [1] ≠
      execute_actions_impl_broadcast (fun _ => none) (fun _ _ => none)
        [.Forward, .Block] [[1]] := by
  refine ⟨rfl, rfl, rfl, ?_⟩
  intro h
  simp only [router_to_gcs_dispatch] at h
  exact absurd h (by decide)

/-- C7 amended: in the router→GCS direction, an *empty* action list or one
whose *first* action is `Forward` broadcasts the unmodified frame once (any
remaining actions after a leading `Forward` are discarded); every other list
is processed through the broadcast executor, where non-`Forward` actions take
effect.  A list consisting only of `Forward` broadcasts the unmodified frame,
and on such lists the fast path agrees with the broadcast executor. -/
theorem router_dispatch_spec (parse : ParseOracle) (encode : EncodeOracle)
    (result : ProcessResult) (packet : Packet) :
    (result.actions = [] ∨ result.actions.head? = some .Forward →
      router_to_gcs_dispatch parse encode result packet = [packet]) ∧
    (result.actions ≠ [] → result.actions.head? ≠ some .Forward →
      router_to_gcs_dispatch parse encode result packet =
        execute_actions_impl_broadcast parse encode result.actions [packet]) ∧
    (result.actions.all Action.isForward = true →
      router_to_gcs_dispatch parse encode result packet = [packet] ∧
      execute_actions_impl_broadcast parse encode result.actions [packet] =
        [packet]) := by
  have hfwd : ∀ (as : List Action) (ps : List Packet),
      as.all Action.isForward = true →
      execute_actions_impl_broadcast parse encode as ps = ps := by
    intro as
    induction as with
    | nil => intro ps _; rfl
    | cons a rest ih =>
      intro ps hall
      rw [List.all_cons, Bool.and_eq_true] at hall
      cases a with
      | Forward => exact ih ps hall.2
      | Delay d => exact absurd hall.1 (by simp [Action.isForward])
      | Block => exact absurd hall.1 (by simp [Action.isForward])
      | Batch c t k f s => exact absurd hall.1 (by simp [Action.isForward])
      | Modify m mm => exact absurd hall.1 (by simp [Action.isForward])
  refine ⟨?_, ?_, ?_⟩
  · rintro (hnil | hfst)
    · simp [router_to_gcs_dispatch, hnil]
    · simp [router_to_gcs_dispatch, hfst]
  · intro hne hfst
    cases has : result.actions with
    | nil => exact absurd has hne
    | cons a rest =>
      cases a with
      | Forward => exact absurd (by simp [has]) hfst
      | Delay d => simp [router_to_gcs_dispatch, has]
      | Block => simp [router_to_gcs_dispatch, has]
      | Batch c t k f s => simp [router_to_gcs_dispatch, has]
      | Modify m mm => simp [router_to_gcs_dispatch, has]
  · intro hall
    refine ⟨?_, hfwd _ _ hall⟩
    cases has : result.actions with
    | nil => simp [router_to_gcs_dispatch, has]
    | cons a rest =>
      have ha : a.isForward = true := by
        rw [has, List.all_cons, Bool.and_eq_true] at hall
        exact hall.1
      cases a with
      | Forward => simp [router_to_gcs_dispatch, has]
      | Delay d => exact absurd ha (by simp [Action.isForward])
      | Block => exact absurd ha (by simp [Action.isForward])
      | Batch c t k f s => exact absurd ha (by simp [Action.isForward])
      | Modify m mm => exact absurd ha (by simp [Action.isForward])

/-- Closed witness for `router_dispatch_spec`: `[Block]` goes through the
broadcast executor (which broadcasts nothing), and `[Forward]` fast-paths to
one broadcast of the raw packet. -/
theorem router_dispatch_spec_witness :
    router_to_gcs_dispatch (fun _ => none) (fun _ _ => none)
        { actions := [.Block], ack_info := none } [1] =
      execute_actions_impl_broadcast (fun _ => none) (fun _ _ => none)
        [.Block] [[1]] ∧
    router_to_gcs_dispatch (fun _ => none) (fun _ _ => none)
        { actions := [.Forward], ack_info := none } [1] = [[1]] := by
  constructor
  · exact (router_dispatch_spec (fun _ => none) (fun _ _ => none)
      { actions := [.Block], ack_info := none } [1]).2.1 (by simp) (by simp)
  · exact ((router_dispatch_spec (fun _ => none) (fun _ _ => none)
      { actions := [.Forward], ack_info := none } [1]).2.2 (by decide)).1

/-- Lookup after inserting the same batch key. -/
theorem batchesGet_insert_self (batches : Batches) (key : String)
    (st : BatchState) : batchesGet (batchesInsert batches key st) key = some st := by
  simp [batchesGet, batchesInsert, List.find?]

/-- Removing a key right after inserting it is removing it from the original
map. -/
theorem batchesRemove_insert (batches : Batches) (key : String)
    (st : BatchState) :
    batchesRemove (batchesInsert batches key st) key =
      batchesRemove batches key := by
  simp only [batchesRemove, batchesInsert, List.filter_cons]
  rw [if_neg (by simp), List.filter_filter]
  exact List.filter_congr (by
    intro a _
    cases h : (a.1 != key) <;> simp [h])

/-- C1 counterexample: a batch for key `K` with stored tail `[Block]` and
`forward_on_timeout = true` times out while present.  The handler sends the
queued packet directly to the destination, while forwarding "through the
stored tail actions via the Action Executor" — as the claim states — would
send nothing, because the tail's `Block` stops the chain. -/
theorem timeout_ignores_tail_counterexample :
    (handle_timeout
        [("K", { packets := [[9]], systems := [1], threshold := 5,
                 created_at := 0, forward_on_timeout := true,
                 remaining_actions := [.Block] })] "K").2 = [[9]] ∧
    (execute_actions_impl (fun _ => none) (fun _ _ => none) 5 [] 0
        [.Block] [[9]]).2 = [] ∧
    (handle_timeout
        [("K", { packets := [[9]], systems := [1], threshold := 5,
                 created_at := 0, forward_on_timeout := true,
                 remaining_actions := [.Block] })] "K").2 ≠
      (execute_actions_impl (fun _ => none) (fun _ _ => none) 5 [] 0
        [.Block] [[9]]).2 := by
  refine ⟨rfl, rfl, ?_⟩
  intro h
  have h' : ([[9]] : List Packet) = [] := h
  simp at h'

/-- C1 amended: when a batch for a present key times out, the handler removes
the entry; if `forward_on_timeout` it writes the queued frames directly to
the stored destination and otherwise drops them — in both cases the stored
tail actions are discarded and no action of the tail runs (the sent packets
do not depend on the stored `remaining_actions` at all). -/
theorem handle_timeout_spec (batches : Batches) (key : String)
    (st : BatchState) (h : batchesGet batches key = some st) :
    handle_timeout batches key =
      (batchesRemove batches key,
       if st.forward_on_timeout then st.packets else []) ∧
    (∀ tail : List Action,
      (handle_timeout
          (batchesInsert batches key { st with remaining_actions := tail })
          key).2 =
        if st.forward_on_timeout then st.packets else []) := by
  constructor
  · unfold handle_timeout
    rw [h]
  · intro tail
    unfold handle_timeout
    rw [batchesGet_insert_self]

/-- Closed witness for `handle_timeout_spec`: a present batch with
`forward_on_timeout = false` is removed and its packets dropped, whatever the
stored tail. -/
theorem handle_timeout_spec_witness :
    handle_timeout
        [("K", { packets := [[7]], systems := [3], threshold := 2,
                 created_at := 0, forward_on_timeout := false,
                 remaining_actions := [.Forward] })] "K" = ([], []) ∧
    (handle_timeout
        (batchesInsert
          [("K", { packets := [[7]], systems := [3], threshold := 2,
                   created_at := 0, forward_on_timeout := false,
                   remaining_actions := [.Forward] })] "K"
          { packets := [[7]], systems := [3], threshold := 2,
            created_at := 0, forward_on_timeout := false,
            remaining_actions := [.Block] }) "K").2 = [] := by
  have h := handle_timeout_spec
    [("K", { packets := [[7]], systems := [3], threshold := 2,
             created_at := 0, forward_on_timeout := false,
             remaining_actions := [.Forward] })] "K"
    { packets := [[7]], systems := [3], threshold := 2,
      created_at := 0, forward_on_timeout := false,
      remaining_actions := [.Forward] } rfl
  exact ⟨h.1, h.2 [.Block]⟩

/-- Observation is `queued`. -/
def BatchObs.isQueued : BatchObs → Bool
  | .queued => true
  | _ => false

/-- A list of `queue_or_release` calls as trace events. -/
def queueEvents (l : List (QueueOp × Nat)) : List BatchEvent :=
  l.map (fun x => .queue x.1 x.2)

/-- The effect of a list of queue calls on one live batch entry. -/
def applyQueueOps (st : BatchState) (l : List (QueueOp × Nat)) : BatchState :=
  l.foldl (fun acc x => acc.add_packet x.1.system_id x.1.packet) st

/-- The packets of a batch extended by queue calls: prior packets followed by
the calls' packets in order. -/
theorem applyQueueOps_packets (l : List (QueueOp × Nat)) (st : BatchState) :
    (applyQueueOps st l).packets =
      st.packets ++ l.map (fun x => x.1.packet) := by
  induction l generalizing st with
  | nil => simp [applyQueueOps]
  | cons x xs ih =>
    show (applyQueueOps (st.add_packet x.1.system_id x.1.packet) xs).packets = _
    rw [ih]
    simp [BatchState.add_packet]

/-- Queue calls never change the stored tail actions. -/
theorem applyQueueOps_remaining (l : List (QueueOp × Nat)) (st : BatchState) :
    (applyQueueOps st l).remaining_actions = st.remaining_actions := by
  induction l generalizing st with
  | nil => rfl
  | cons x xs ih =>
    show (applyQueueOps (st.add_packet x.1.system_id x.1.packet) xs).remaining_actions = _
    rw [ih]
    simp [BatchState.add_packet]

/-- `queue_or_release` on an existing entry: append the packet, record the
source, release against the *stored* threshold and tail. -/
theorem queue_or_release_existing (batches : Batches) (now : Nat) (key : String)
    (system_id : Nat) (packet : Packet) (threshold timeout_secs : Nat)
    (forward_on_timeout : Bool) (remaining_actions : List Action)
    (st : BatchState) (hget : batchesGet batches key = some st) :
    queue_or_release batches now key system_id packet threshold timeout_secs
        forward_on_timeout remaining_actions =
      if (st.add_packet system_id packet).is_ready then
        (batchesRemove batches key,
         .Release (st.add_packet system_id packet).packets
           st.remaining_actions)
      else
        (batchesInsert batches key (st.add_packet system_id packet),
         .Queued) := by
  unfold queue_or_release
  rw [hget]
  cases hr : (st.add_packet system_id packet).is_ready with
  | true =>
    simp [batchesRemove_insert, BatchState.add_packet]
    exact hr
  | false =>
    simp
    exact hr

/-- `queue_or_release` on an absent key: create the entry from the caller's
parameters (spawning the timeout task), then behave as on an existing
entry. -/
theorem queue_or_release_fresh (batches : Batches) (now : Nat) (key : String)
    (system_id : Nat) (packet : Packet) (threshold timeout_secs : Nat)
    (forward_on_timeout : Bool) (remaining_actions : List Action)
    (hget : batchesGet batches key = none) :
    queue_or_release batches now key system_id packet threshold timeout_secs
        forward_on_timeout remaining_actions =
      if ((BatchState.new threshold forward_on_timeout remaining_actions
            now).add_packet system_id packet).is_ready then
        (batchesRemove batches key,
         .Release [packet] remaining_actions)
      else
        (batchesInsert batches key
          ((BatchState.new threshold forward_on_timeout remaining_actions
            now).add_packet system_id packet),
         .Queued) := by
  unfold queue_or_release
  rw [hget]
  cases hr : ((BatchState.new threshold forward_on_timeout remaining_actions
      now).add_packet system_id packet).is_ready with
  | true =>
    simp [batchesRemove_insert, BatchState.add_packet, BatchState.new,
      insertSystem]
    exact hr
  | false =>
    simp
    exact hr

/-- Unfolding lemma for `batchRun` on a cons. -/
theorem batchRun_cons (batches : Batches) (e : BatchEvent)
    (es : List BatchEvent) :
    batchRun batches (e :: es) =
      ((batchRun (batchStep batches e).1 es).1,
       (batchStep batches e).2 :: (batchRun (batchStep batches e).1 es).2) := by
  rcases h : batchStep batches e with ⟨b', obs⟩
  rcases h2 : batchRun b' es with ⟨b'', obss⟩
  simp only [batchRun, h, h2]

/-- Invariant: a run of queue calls for key `K` that only ever observes
`Queued` extends the live entry for `K` by exactly those calls' packets and
sources, touching nothing else about it. -/
theorem batch_queue_inv (K : String) (l : List (QueueOp × Nat)) :
    ∀ (batches : Batches) (st0 : BatchState),
      (∀ x ∈ l, x.1.key = K) →
      batchesGet batches K = some st0 →
      (batchRun batches (queueEvents l)).2.all BatchObs.isQueued = true →
      batchesGet (batchRun batches (queueEvents l)).1 K =
        some (applyQueueOps st0 l) := by
  induction l with
  | nil =>
    intro batches st0 _ hget _
    simpa [batchRun, queueEvents, applyQueueOps] using hget
  | cons x xs ih =>
    intro batches st0 hkeys hget hall
    have hkey : x.1.key = K := hkeys x (List.mem_cons_self _ _)
    have hstep : batchStep batches (.queue x.1 x.2) =
        if (st0.add_packet x.1.system_id x.1.packet).is_ready then
          (batchesRemove batches K,
           .released (st0.add_packet x.1.system_id x.1.packet).packets
             st0.remaining_actions)
        else
          (batchesInsert batches K (st0.add_packet x.1.system_id x.1.packet),
           .queued) := by
      show (match queue_or_release batches x.2 x.1.key x.1.system_id
          x.1.packet x.1.threshold x.1.timeout_secs x.1.forward_on_timeout
          x.1.remaining_actions with
        | (batches', .Queued) => (batches', BatchObs.queued)
        | (batches', .Release ps ras) => (batches', .released ps ras)) = _
      rw [hkey, queue_or_release_existing _ _ _ _ _ _ _ _ _ _ hget]
      cases hr : (st0.add_packet x.1.system_id x.1.packet).is_ready with
      | true => simp [hr]
      | false => simp [hr]
    have hevents : queueEvents (x :: xs) =
        .queue x.1 x.2 :: queueEvents xs := rfl
    rw [hevents, batchRun_cons] at hall ⊢
    cases hr : (st0.add_packet x.1.system_id x.1.packet).is_ready with
    | true =>
      rw [hstep] at hall
      simp only [hr, if_true, List.all_cons, Bool.and_eq_true] at hall
      exact absurd hall.1 (by simp [BatchObs.isQueued])
    | false =>
      rw [hstep] at hall ⊢
      simp only [hr, if_false, List.all_cons, Bool.and_eq_true] at hall ⊢
      have := ih (batchesInsert batches K
          (st0.add_packet x.1.system_id x.1.packet))
        (st0.add_packet x.1.system_id x.1.packet)
        (fun y hy => hkeys y (List.mem_cons_of_mem _ hy))
        (batchesGet_insert_self _ _ _) hall.2
      exact this

/-- C3: a `queue_or_release` call that makes a batch's unique-source count
reach its threshold removes the entry and returns `Release` whose packets are
exactly the packets inserted into that batch since its creation, in insertion
order, and whose tail is the `remaining_actions` stored at creation — not the
tail supplied by the releasing caller (`opN.remaining_actions` is
unconstrained). -/
theorem batch_threshold_release (K : String) (op0 : QueueOp) (now0 : Nat)
    (l : List (QueueOp × Nat)) (opN : QueueOp) (nowN : Nat) (batches : Batches)
    (h0 : batchesGet batches K = none)
    (hk0 : op0.key = K) (hkl : ∀ x ∈ l, x.1.key = K)
    (hQ : (batchRun batches (queueEvents ((op0, now0) :: l))).2.all
      BatchObs.isQueued = true)
    (hready : ((applyQueueOps
        ((BatchState.new op0.threshold op0.forward_on_timeout
          op0.remaining_actions now0).add_packet op0.system_id op0.packet)
        l).add_packet opN.system_id opN.packet).is_ready = true) :
    queue_or_release (batchRun batches (queueEvents ((op0, now0) :: l))).1
        nowN K opN.system_id opN.packet opN.threshold opN.timeout_secs
        opN.forward_on_timeout opN.remaining_actions =
      (batchesRemove (batchRun batches (queueEvents ((op0, now0) :: l))).1 K,
       .Release (op0.packet :: (l.map (fun x => x.1.packet) ++ [opN.packet]))
         op0.remaining_actions) := by
  have hevents : queueEvents ((op0, now0) :: l) =
      .queue op0 now0 :: queueEvents l := rfl
  have hstep : batchStep batches (.queue op0 now0) =
      if ((BatchState.new op0.threshold op0.forward_on_timeout
            op0.remaining_actions now0).add_packet op0.system_id
            op0.packet).is_ready then
        (batchesRemove batches K,
         .released [op0.packet] op0.remaining_actions)
      else
        (batchesInsert batches K
          ((BatchState.new op0.threshold op0.forward_on_timeout
            op0.remaining_actions now0).add_packet op0.system_id op0.packet),
         .queued) := by
    show (match queue_or_release batches now0 op0.key op0.system_id op0.packet
        op0.threshold op0.timeout_secs op0.forward_on_timeout
        op0.remaining_actions with
      | (batches', .Queued) => (batches', BatchObs.queued)
      | (batches', .Release ps ras) => (batches', .released ps ras)) = _
    rw [hk0, queue_or_release_fresh _ _ _ _ _ _ _ _ _ h0]
    cases hr : ((BatchState.new op0.threshold op0.forward_on_timeout
        op0.remaining_actions now0).add_packet op0.system_id
        op0.packet).is_ready with
    | true => simp [hr]
    | false => simp [hr]
  rw [hevents, batchRun_cons] at hQ ⊢
  cases hrA : ((BatchState.new op0.threshold op0.forward_on_timeout
      op0.remaining_actions now0).add_packet op0.system_id
      op0.packet).is_ready with
  | true =>
    rw [hstep] at hQ
    simp only [hrA, if_true, List.all_cons, Bool.and_eq_true] at hQ
    exact absurd hQ.1 (by simp [BatchObs.isQueued])
  | false =>
    rw [hstep] at hQ ⊢
    simp only [hrA, Bool.false_eq_true, if_false, List.all_cons,
      Bool.and_eq_true] at hQ ⊢
    have hinv := batch_queue_inv K l
      (batchesInsert batches K
        ((BatchState.new op0.threshold op0.forward_on_timeout
          op0.remaining_actions now0).add_packet op0.system_id op0.packet))
      ((BatchState.new op0.threshold op0.forward_on_timeout
        op0.remaining_actions now0).add_packet op0.system_id op0.packet)
      hkl (batchesGet_insert_self _ _ _) hQ.2
    rw [queue_or_release_existing _ _ _ _ _ _ _ _ _ _ hinv, if_pos hready]
    refine congrArg _ ?_
    congr 1
    · rw [BatchState.add_packet, applyQueueOps_packets]
      simp [BatchState.add_packet, BatchState.new]
    · rw [applyQueueOps_remaining]
      simp [BatchState.add_packet, BatchState.new]

/-- Closed witness for `batch_threshold_release`: key `"arm"`, threshold 2;
sources 1, 1, 2 queue three packets; the third call reaches the threshold and
releases all three packets in insertion order with the creation-time tail
`[Block]`, not the caller's `[Forward]`. -/
theorem batch_threshold_release_witness :
    queue_or_release
        (batchRun []
          (queueEvents
            [({ key := "arm", system_id := 1, packet := [1], threshold := 2,
                timeout_secs := 30, forward_on_timeout := true,
                remaining_actions := [.Block] }, 0),
             ({ key := "arm", system_id := 1, packet := [2], threshold := 2,
                timeout_secs := 30, forward_on_timeout := true,
                remaining_actions := [.Block] }, 1)])).1
        2 "arm" 2 [3] 2 30 true [.Forward] =
      (batchesRemove
        (batchRun []
          (queueEvents
            [({ key := "arm", system_id := 1, packet := [1], threshold := 2,
                timeout_secs := 30, forward_on_timeout := true,
                remaining_actions := [.Block] }, 0),
             ({ key := "arm", system_id := 1, packet := [2], threshold := 2,
                timeout_secs := 30, forward_on_timeout := true,
                remaining_actions := [.Block] }, 1)])).1 "arm",
       .Release [[1], [2], [3]] [.Block]) := by
  have h := batch_threshold_release "arm"
    { key := "arm", system_id := 1, packet := [1], threshold := 2,
      timeout_secs := 30, forward_on_timeout := true,
      remaining_actions := [.Block] } 0
    [({ key := "arm", system_id := 1, packet := [2], threshold := 2,
        timeout_secs := 30, forward_on_timeout := true,
        remaining_actions := [.Block] }, 1)]
    { key := "arm", system_id := 2, packet := [3], threshold := 2,
      timeout_secs := 30, forward_on_timeout := true,
      remaining_actions := [.Forward] } 2 [] rfl rfl
    (by
      intro x hx
      rcases List.mem_singleton.mp hx with rfl
      rfl)
    (by rfl) (by rfl)
  exact h

/-- C2 at its failing input: batch A under key `"K"` (threshold 1) is created
and released by threshold at `t = 0`, leaving its spawned timeout task
pending; a fresh batch B under `"K"` (threshold 2, `forward_on_timeout =
false`) is created at `t = 5` and queued; at `t = 10` A's stale timeout task
fires, looks its key up, finds B, removes it and drops B's packet.  The fresh
batch is destroyed by the stale task: `BatchState` stores no creation
identity and `handle_timeout` checks none. -/
theorem stale_timeout_destroys_fresh_batch :
    batchRun []
        [.queue { key := "K", system_id := 1, packet := [1], threshold := 1,
                  timeout_secs := 10, forward_on_timeout := true,
                  remaining_actions := [] } 0,
         .queue { key := "K", system_id := 2, packet := [2], threshold := 2,
                  timeout_secs := 10, forward_on_timeout := false,
                  remaining_actions := [] } 5,
         .timeout "K"] =
      ([], [.released [[1]] [], .queued, .timeoutDropped [[2]]]) := rfl

end Bitch
